import Mathlib

/-!
# Verification of the inventory-app reconciliation and import engine

This file gives a shallow embedding, in Lean 4, of the core logic of the
inventory application: the single-decimal rounding helpers, the reorder
(order-quantity) computation of the `/api/reorder` handler, the tenths-based
order computation of the Hono worker, the bulk-import pipeline of the
`/api/import` handler, and the vendor/material grouping performed by the
`Reorder` UI component.

JavaScript numbers are embedded as exact rationals (`ℚ`), with an explicit
`JsNum` type where the code distinguishes finite values from `NaN`/infinities.
`Math.round` is embedded as Mathlib's `round` (both round half toward `+∞`),
`Math.ceil` as `Int.ceil`, and `Math.max` as `max`.  Strings are Lean
`String`s; JavaScript `String.prototype.trim` is embedded as a structural
whitespace-stripping function on the character list.
-/

/-- A JavaScript number: either a finite value (embedded exactly as a
rational) or one of the non-finite values `NaN`, `Infinity`, `-Infinity`. -/
inductive JsNum where
  | num (q : ℚ)
  | nan
  | inf
  | negInf
deriving DecidableEq, Repr

/-- Models `Number.isFinite`. -/
def JsNum.isFiniteJs : JsNum → Bool
  | .num _ => true
  | _ => false

/-- The function `round1` from `functions/api/[[route]].ts` (lines 19–22):
`if (!Number.isFinite(n)) return 0; return Math.round(n * 10) / 10;`.
The result is always finite, so it is returned as a rational. -/
def round1 : JsNum → ℚ
  | .num q => (round (q * 10) : ℤ) / 10
  | _ => 0

/-- The function `round1` applied to a finite number. -/
def round1q (q : ℚ) : ℚ := round1 (.num q)

/-- The epsilon `1e-9` used by the reorder handler. -/
def epsReorder : ℚ := 1 / 1000000000

/-- The per-product order computation of the reorder handler
(`functions/api/[[route]].ts` lines 594–599):
`par = Math.max(0, round1(Number(r.par)))`,
`total_on_hand = Math.max(0, round1(Number(r.total_on_hand)))`,
`raw = Math.max(0, par - total_on_hand)`,
`to_order = raw > 0 ? Math.ceil(raw - 1e-9) : 0`. -/
def toOrder (par totalOnHand : ℚ) : ℤ :=
  let p := max 0 (round1q par)
  let t := max 0 (round1q totalOnHand)
  let raw := max 0 (p - t)
  if 0 < raw then ⌈raw - epsReorder⌉ else 0

/-- The function `toTenths` from the Hono worker (`src/unnamed/part_000` lines 22–24):
`Math.round(n * 10)`. -/
def toTenths (n : ℚ) : ℤ := round (n * 10)

/-- The function `calcOrderQtyUnits` from the Hono worker (`src/unnamed/part_000`
lines 26–30): `neededTenths = parTenths - onHandTenths;
if (neededTenths <= 0) return 0; return Math.ceil(neededTenths / 10);`. -/
def calcOrderQtyUnits (parTenths onHandTenths : ℤ) : ℤ :=
  let neededTenths := parTenths - onHandTenths
  if neededTenths ≤ 0 then 0 else ⌈(neededTenths : ℚ) / 10⌉

/-- A rational carries at most one decimal digit: it is an integer count of
tenths. -/
def IsTenth (q : ℚ) : Prop := ∃ k : ℤ, q = (k : ℚ) / 10

/-! ## Arithmetic facts about the rounding core -/

theorem round1q_def (q : ℚ) : round1q q = (round (q * 10) : ℤ) / 10 := rfl

theorem isTenth_round1 (v : JsNum) : IsTenth (round1 v) := by
  cases v with
  | num q => exact ⟨round (q * 10), rfl⟩
  | nan => exact ⟨0, by simp [round1]⟩
  | inf => exact ⟨0, by simp [round1]⟩
  | negInf => exact ⟨0, by simp [round1]⟩

theorem isTenth_round1q (q : ℚ) : IsTenth (round1q q) := isTenth_round1 (.num q)

theorem round1q_of_tenth (k : ℤ) : round1q ((k : ℚ) / 10) = (k : ℚ) / 10 := by
  rw [round1q_def, div_mul_cancel₀ _ (by norm_num : (10:ℚ) ≠ 0), round_intCast]

theorem round1q_intCast (k : ℤ) : round1q (k : ℚ) = (k : ℚ) := by
  have h := round1q_of_tenth (10 * k)
  rw [show ((10 * k : ℤ) : ℚ) / 10 = (k : ℚ) by push_cast; ring] at h
  exact h

theorem round_monoQ {x y : ℚ} (h : x ≤ y) : round x ≤ round y := by
  rw [round_eq, round_eq]
  exact Int.floor_mono (by linarith)

theorem round1q_mono {x y : ℚ} (h : x ≤ y) : round1q x ≤ round1q y := by
  rw [round1q_def, round1q_def]
  have h1 : round (x * 10) ≤ round (y * 10) := round_monoQ (by linarith)
  have h2 : ((round (x * 10) : ℤ) : ℚ) ≤ ((round (y * 10) : ℤ) : ℚ) := by
    exact_mod_cast h1
  linarith

theorem isTenth_max_zero {q : ℚ} (h : IsTenth q) : IsTenth (max 0 q) := by
  obtain ⟨k, rfl⟩ := h
  rcases le_total 0 ((k : ℚ) / 10) with h' | h'
  · rw [max_eq_right h']; exact ⟨k, rfl⟩
  · rw [max_eq_left h']; exact ⟨0, by norm_num⟩

theorem isTenth_sub {a b : ℚ} (ha : IsTenth a) (hb : IsTenth b) :
    IsTenth (a - b) := by
  obtain ⟨k, rfl⟩ := ha
  obtain ⟨l, rfl⟩ := hb
  exact ⟨k - l, by push_cast; ring⟩

/-- On an integer count of tenths, subtracting the `1e-9` epsilon does not
change the ceiling: the granularity `1/10` exceeds `1e-9`. -/
theorem ceil_sub_eps_of_tenth (k : ℤ) :
    ⌈(k : ℚ) / 10 - epsReorder⌉ = ⌈(k : ℚ) / 10⌉ := by
  set q : ℚ := (k : ℚ) / 10 with hq
  set m : ℤ := ⌈q⌉ with hm
  rw [Int.ceil_eq_iff]
  constructor
  · -- ↑m - 1 < q - eps, via the tenths granularity
    have h1 : (m : ℚ) - 1 < q := by
      have := Int.ceil_lt_add_one q
      rw [← hm] at this
      linarith
    have h2 : (10 * (m - 1) : ℤ) < k := by
      have : ((10 * (m - 1) : ℤ) : ℚ) < (k : ℚ) := by
        push_cast
        have : (m : ℚ) - 1 < (k : ℚ) / 10 := h1
        linarith
      exact_mod_cast this
    have h3 : (10 * (m - 1) + 1 : ℤ) ≤ k := h2
    have h4 : ((10 * (m - 1) + 1 : ℤ) : ℚ) ≤ (k : ℚ) := by exact_mod_cast h3
    have h5 : (m : ℚ) - 1 + 1 / 10 ≤ q := by
      rw [hq]
      push_cast at h4 ⊢
      linarith
    have : epsReorder < 1 / 10 := by norm_num [epsReorder]
    linarith
  · have : q ≤ (m : ℚ) := Int.le_ceil q
    have heps : (0:ℚ) < epsReorder := by norm_num [epsReorder]
    linarith

/-- The computation `toOrder`, unfolded on explicitly clamped/rounded inputs. -/
theorem toOrder_def (par totalOnHand : ℚ) :
    toOrder par totalOnHand =
      (if 0 < max 0 (max 0 (round1q par) - max 0 (round1q totalOnHand)) then
        ⌈max 0 (max 0 (round1q par) - max 0 (round1q totalOnHand)) - epsReorder⌉
      else 0) := rfl

/-- The clamped shortfall of the reorder computation is a count of tenths,
positive whenever the shortfall is positive. -/
theorem shortfall_tenths (par totalOnHand : ℚ) :
    ∃ k : ℤ, max 0 (max 0 (round1q par) - max 0 (round1q totalOnHand)) =
      (k : ℚ) / 10 ∧ 0 ≤ k := by
  obtain ⟨a, ha⟩ := isTenth_max_zero (isTenth_round1q par)
  obtain ⟨b, hb⟩ := isTenth_max_zero (isTenth_round1q totalOnHand)
  rcases le_total (max 0 (round1q par) - max 0 (round1q totalOnHand)) 0 with h | h
  · exact ⟨0, by rw [max_eq_left h]; norm_num, le_refl 0⟩
  · refine ⟨a - b, ?_, ?_⟩
    · rw [max_eq_right h, ha, hb]
      push_cast
      ring
    · have : (0:ℚ) ≤ ((a - b : ℤ) : ℚ) / 10 := by
        rw [show ((a - b : ℤ) : ℚ) / 10 = (a:ℚ)/10 - (b:ℚ)/10 by push_cast; ring,
          ← ha, ← hb]
        exact h
      by_contra hneg
      push_neg at hneg
      have : ((a - b : ℤ) : ℚ) < 0 := by exact_mod_cast hneg
      have h10 : (0:ℚ) < 10 := by norm_num
      nlinarith

/-! ## C1: `to_order` is the ceiling of the shortfall -/

/-- C1. For every product in the reorder computation, the emitted order
quantity is `0` when the clamped shortfall `max(par - total_on_hand, 0)`
(computed on the clamped, one-decimal-rounded `par` and `total_on_hand` of
the emitted row) is zero, and otherwise equals the ceiling of the shortfall;
in particular `to_order(10.0, 10.0) = 0`, `to_order(10.0, 9.9) = 1`, and
`to_order(10.0, 7.8) = 3`. -/
theorem C1_toOrder_ceil_shortfall :
    (∀ par totalOnHand : ℚ,
      toOrder par totalOnHand =
        (if max (max 0 (round1q par) - max 0 (round1q totalOnHand)) 0 = 0 then 0
         else ⌈max (max 0 (round1q par) - max 0 (round1q totalOnHand)) 0⌉)) ∧
    toOrder 10 10 = 0 ∧ toOrder 10 (99/10) = 1 ∧ toOrder 10 (39/5) = 3 := by
  have key : ∀ par totalOnHand : ℚ,
      toOrder par totalOnHand =
        (if max (max 0 (round1q par) - max 0 (round1q totalOnHand)) 0 = 0 then 0
         else ⌈max (max 0 (round1q par) - max 0 (round1q totalOnHand)) 0⌉) := by
    intro par t
    rw [toOrder_def]
    rw [max_comm (max 0 (round1q par) - max 0 (round1q t)) 0]
    obtain ⟨k, hk, hk0⟩ := shortfall_tenths par t
    rw [hk]
    rcases eq_or_lt_of_le hk0 with h0 | hpos
    · subst h0
      norm_num
    · have hq : (0:ℚ) < (k : ℚ) / 10 := by positivity
      rw [if_pos hq, if_neg (by positivity), ceil_sub_eps_of_tenth]
  refine ⟨key, ?_, ?_, ?_⟩
  · -- par 10, on hand 10.0: shortfall 0
    rw [key]
    have h10 : round1q (10:ℚ) = 10 := by
      have := round1q_intCast 10; norm_num at this; exact this
    rw [h10]
    norm_num
  · -- par 10, on hand 9.9: shortfall 0.1, order 1
    rw [key]
    have h10 : round1q (10:ℚ) = 10 := by
      have := round1q_intCast 10; norm_num at this; exact this
    have h99 : round1q (99/10 : ℚ) = 99/10 := by
      have := round1q_of_tenth 99; norm_num at this; exact this
    rw [h10, h99]
    rw [show max 0 (10:ℚ) = 10 by norm_num, show max 0 (99/10:ℚ) = 99/10 by norm_num]
    rw [show (10:ℚ) - 99/10 = 1/10 by norm_num]
    rw [show max (1/10:ℚ) 0 = 1/10 by norm_num]
    rw [if_neg (by norm_num)]
    rw [Int.ceil_eq_iff]
    exact ⟨by norm_num, by norm_num⟩
  · -- par 10, on hand 7.8: shortfall 2.2, order 3
    rw [key]
    have h10 : round1q (10:ℚ) = 10 := by
      have := round1q_intCast 10; norm_num at this; exact this
    have h78 : round1q (39/5 : ℚ) = 39/5 := by
      have := round1q_of_tenth 78; norm_num at this; exact this
    rw [h10, h78]
    rw [show max 0 (10:ℚ) = 10 by norm_num, show max 0 (39/5:ℚ) = 39/5 by norm_num]
    rw [show (10:ℚ) - 39/5 = 11/5 by norm_num]
    rw [show max (11/5:ℚ) 0 = 11/5 by norm_num]
    rw [if_neg (by norm_num)]
    rw [Int.ceil_eq_iff]
    exact ⟨by norm_num, by norm_num⟩

/-! ## C5: monotonicity of `to_order` in the on-hand quantity -/

/-- C5. For a fixed PAR, `to_order` is non-increasing as the total on-hand
quantity increases. -/
theorem C5_toOrder_antitone (par a b : ℚ) (h : a ≤ b) :
    toOrder par b ≤ toOrder par a := by
  rw [toOrder_def, toOrder_def]
  set p := max 0 (round1q par) with hp
  set ta := max 0 (round1q a) with hta
  set tb := max 0 (round1q b) with htb
  have htab : ta ≤ tb := max_le_max (le_refl 0) (round1q_mono h)
  have hraw : max 0 (p - tb) ≤ max 0 (p - ta) :=
    max_le_max (le_refl 0) (by linarith)
  by_cases hb : 0 < max 0 (p - tb)
  · have ha : 0 < max 0 (p - ta) := lt_of_lt_of_le hb hraw
    rw [if_pos hb, if_pos ha]
    exact Int.ceil_mono (by linarith)
  · rw [if_neg hb]
    by_cases ha : 0 < max 0 (p - ta)
    · rw [if_pos ha]
      have h0 : (0:ℚ) ≤ max 0 (p - ta) := le_max_left 0 _
      have h1 : ((-1 : ℤ) : ℚ) < max 0 (p - ta) - epsReorder := by
        push_cast
        norm_num [epsReorder]
        linarith
      have h2 : (-1 : ℤ) < ⌈max 0 (p - ta) - epsReorder⌉ := Int.lt_ceil.mpr h1
      omega
    · rw [if_neg ha]

/-- Witness for C5 at concrete inputs `par = 10`, `a = 5`, `b = 7`. -/
theorem C5_toOrder_antitone_witness :
    (5 : ℚ) ≤ 7 ∧ toOrder 10 7 ≤ toOrder 10 5 :=
  ⟨by norm_num, C5_toOrder_antitone 10 5 7 (by norm_num)⟩

/-! ## C9: idempotence of `round1`; non-finite inputs map to `0` -/

/-- C9. `round1` is idempotent on every finite input, and `round1` of a
non-finite input (`NaN`, `Infinity`, `-Infinity`) returns `0`. -/
theorem C9_round1_idempotent :
    (∀ x : ℚ, round1q (round1q x) = round1q x) ∧
    (∀ v : JsNum, v.isFiniteJs = false → round1 v = 0) := by
  constructor
  · intro x
    rw [round1q_def x]
    exact round1q_of_tenth (round (x * 10))
  · intro v hv
    cases v with
    | num q => simp [JsNum.isFiniteJs] at hv
    | nan => rfl
    | inf => rfl
    | negInf => rfl

/-- Witness for C9's second conjunct at the concrete non-finite input `NaN`
(the first conjunct is hypothesis-free). -/
theorem C9_round1_idempotent_witness :
    round1q (round1q (5/2)) = round1q (5/2) ∧
    JsNum.nan.isFiniteJs = false ∧ round1 JsNum.nan = 0 :=
  ⟨C9_round1_idempotent.1 (5/2), by decide, C9_round1_idempotent.2 .nan (by decide)⟩

/-! ## C10: the tenths computation refines the endpoint computation -/

/-- C10. For PAR and on-hand values that are non-negative exact multiples of
`0.1`, the integer-tenths computation
`calcOrderQtyUnits(toTenths(par), toTenths(onHand))` of the Hono worker
returns the same whole-unit order count as the reorder endpoint's
computation `toOrder par onHand`. -/
theorem C10_tenths_refines_toOrder (par onHand : ℚ)
    (hpar : 0 ≤ par) (hoh : 0 ≤ onHand)
    (hpt : IsTenth par) (hot : IsTenth onHand) :
    calcOrderQtyUnits (toTenths par) (toTenths onHand) = toOrder par onHand := by
  obtain ⟨a, rfl⟩ := hpt
  obtain ⟨b, rfl⟩ := hot
  have ha0 : 0 ≤ a := by
    by_contra h
    push_neg at h
    have : ((a:ℚ)/10) < 0 := by
      have : (a : ℚ) < 0 := by exact_mod_cast h
      linarith [div_neg_of_neg_of_pos this (by norm_num : (0:ℚ) < 10)]
    linarith
  have hb0 : 0 ≤ b := by
    by_contra h
    push_neg at h
    have : ((b:ℚ)/10) < 0 := by
      have : (b : ℚ) < 0 := by exact_mod_cast h
      linarith [div_neg_of_neg_of_pos this (by norm_num : (0:ℚ) < 10)]
    linarith
  have hta : toTenths ((a:ℚ)/10) = a := by
    rw [toTenths, div_mul_cancel₀ _ (by norm_num : (10:ℚ) ≠ 0), round_intCast]
  have htb : toTenths ((b:ℚ)/10) = b := by
    rw [toTenths, div_mul_cancel₀ _ (by norm_num : (10:ℚ) ≠ 0), round_intCast]
  rw [hta, htb, toOrder_def, round1q_of_tenth, round1q_of_tenth]
  rw [max_eq_right (by positivity : (0:ℚ) ≤ (a:ℚ)/10),
    max_eq_right (by positivity : (0:ℚ) ≤ (b:ℚ)/10)]
  rw [calcOrderQtyUnits]
  rcases le_or_lt a b with hab | hab
  · -- no shortfall
    rw [if_pos (by omega)]
    have : (a:ℚ)/10 - (b:ℚ)/10 ≤ 0 := by
      have : (a:ℚ) ≤ (b:ℚ) := by exact_mod_cast hab
      linarith
    rw [max_eq_left this, if_neg (by norm_num)]
  · -- positive shortfall a - b tenths
    rw [if_neg (by omega)]
    have hd : (a:ℚ)/10 - (b:ℚ)/10 = ((a - b : ℤ) : ℚ)/10 := by push_cast; ring
    have hpos : (0:ℚ) < ((a - b : ℤ) : ℚ)/10 := by
      have : (0:ℚ) < ((a - b : ℤ) : ℚ) := by exact_mod_cast (by omega : (0:ℤ) < a - b)
      positivity
    rw [hd, max_eq_right (le_of_lt hpos), if_pos hpos, ceil_sub_eps_of_tenth]

/-- Witness for C10 at `par = 5.5`, `onHand = 2` (the end-to-end scenario of
the spec: shortfall `3.5`, order `4`). -/
theorem C10_tenths_refines_toOrder_witness :
    (0:ℚ) ≤ 11/2 ∧ (0:ℚ) ≤ 2 ∧
    calcOrderQtyUnits (toTenths (11/2)) (toTenths 2) = toOrder (11/2) 2 :=
  ⟨by norm_num, by norm_num,
    C10_tenths_refines_toOrder (11/2) 2 (by norm_num) (by norm_num)
      ⟨55, by norm_num⟩ ⟨20, by norm_num⟩⟩

/-! ## Strings: trim, ASCII case folding, order

JavaScript `String.prototype.trim` strips whitespace from both ends; it is
embedded structurally on the character list.  `toLowerCase` and
`localeCompare` are embedded for ASCII data: case folding maps `A`–`Z` to
`a`–`z`, and `localeCompare` ordering is the lexicographic order on the
folded strings. -/

/-- JS `String.prototype.trim`. -/
def jsTrim (s : String) : String :=
  ⟨(((s.data.dropWhile Char.isWhitespace).reverse.dropWhile Char.isWhitespace).reverse)⟩

/-- ASCII case folding of one character (JS `toLowerCase` on ASCII). -/
def charLower (c : Char) : Char :=
  if 'A' ≤ c ∧ c ≤ 'Z' then Char.ofNat (c.toNat + 32) else c

/-- ASCII `toLowerCase`. -/
def lowerStr (s : String) : String := ⟨s.data.map charLower⟩

/-! ## Data model

The relational store of `ensureSchema`: `locations`, `material_types` and
`vendors` are `(id, name)` tables with unique names; `products` carries
`(id, name, sku, material_type_id, vendor_id, par)` with unique `sku`;
`product_locations` is the assignment relation; `on_hand` is keyed by
`(product_id, location_id)` (the `updated_at` timestamp column is not
modelled).  Lists are kept in insertion order; `AUTOINCREMENT` ids are
modelled with explicit `next…Id` counters. -/

structure Product where
  id : Nat
  name : String
  sku : String
  materialTypeId : Option Nat
  vendorId : Option Nat
  par : ℚ
deriving DecidableEq, Repr

structure OnHandRow where
  productId : Nat
  locationId : Nat
  qty : ℚ
deriving DecidableEq, Repr

structure Db where
  locations : List (Nat × String)
  materialTypes : List (Nat × String)
  vendors : List (Nat × String)
  products : List Product
  productLocations : List (Nat × Nat)
  onHand : List OnHandRow
  nextLocationId : Nat
  nextMaterialTypeId : Nat
  nextVendorId : Nat
  nextProductId : Nat
deriving DecidableEq, Repr

def emptyDb : Db := ⟨[], [], [], [], [], [], 1, 1, 1, 1⟩

/-- Models `SELECT id FROM <table> WHERE name = ?`. -/
def lookupByName (t : List (Nat × String)) (n : String) : Option Nat :=
  (t.find? (fun e => e.2 == n)).map (·.1)

/-- Models `INSERT OR IGNORE INTO <table> (name) VALUES (?)`. -/
def insertIfAbsentName (t : List (Nat × String)) (nid : Nat) (n : String) :
    List (Nat × String) × Nat :=
  match lookupByName t n with
  | some _ => (t, nid)
  | none => (t ++ [(nid, n)], nid + 1)

/-- A batch of `INSERT OR IGNORE` statements over a name list. -/
def insertNames (t : List (Nat × String)) (nid : Nat) :
    List String → List (Nat × String) × Nat
  | [] => (t, nid)
  | n :: ns =>
    let r := insertIfAbsentName t nid n
    insertNames r.1 r.2 ns

/-! ## The import pipeline (`POST /api/import`) -/

/-- A raw import row as received in the request body.  String-valued fields
are `Option String` (`undefined` ↦ `none`).  The numeric fields `par` and
`on_hand` are `Option JsNum`: `none` models `undefined`/`null`/`""` (for
which `toNum1` returns `0` and the on-hand presence check fails), and
`some v` a present value whose numeric coercion is `v` (a non-numeric
non-empty string coerces to `NaN`, i.e. `some .nan`). -/
structure RawImportRow where
  location : Option String := none
  material_type : Option String := none
  vendor : Option String := none
  sku : Option String := none
  name : Option String := none
  par : Option JsNum := none
  on_hand : Option JsNum := none
deriving DecidableEq, Repr

/-- The coercion `toNum1` from the import handler (lines 245–250): `null`/`undefined`/`""`
and non-finite coercions give `0`, otherwise round to one decimal. -/
def toNum1 : Option JsNum → ℚ
  | none => 0
  | some v => round1 v

/-- A normalized row (lines 231–240): string fields trimmed (note: the SKU
is only trimmed, not uppercased), numeric fields passed through. -/
structure NormRow where
  location : String
  material_type : String
  vendor : String
  sku : String
  name : String
  par : Option JsNum
  on_hand : Option JsNum
deriving DecidableEq, Repr

def normRow (r : RawImportRow) : NormRow :=
  { location := jsTrim (r.location.getD "")
    material_type := jsTrim (r.material_type.getD "")
    vendor := jsTrim (r.vendor.getD "")
    sku := jsTrim (r.sku.getD "")
    name := jsTrim (r.name.getD "")
    par := r.par
    on_hand := r.on_hand }

/-- Normalization plus the `filter((r) => r.sku && r.name)` validation. -/
def normRows (rows : List RawImportRow) : List NormRow :=
  (rows.map normRow).filter (fun r => !(r.sku == "") && !(r.name == ""))

/-- Models `Array.from(new Set(...))`: deduplication keeping first occurrences. -/
def dedupGo : List String → List String → List String
  | [], _ => []
  | x :: xs, seen => if x ∈ seen then dedupGo xs seen else x :: dedupGo xs (x :: seen)

def dedup (l : List String) : List String := dedupGo l []

/-- The product-upsert batch (lines 298–313): for each normalized row in
order, `INSERT ... ON CONFLICT(sku) DO UPDATE SET name, material_type_id,
vendor_id, par` — an existing row with the same SKU has those four fields
overwritten (id and sku unchanged); otherwise a fresh row is inserted. -/
def upsertProducts (mts vens : List (Nat × String)) :
    List NormRow → List Product → Nat → List Product × Nat
  | [], prods, nid => (prods, nid)
  | r :: rs, prods, nid =>
    let mtId := if r.material_type == "" then none else lookupByName mts r.material_type
    let vId := if r.vendor == "" then none else lookupByName vens r.vendor
    let par := toNum1 r.par
    if prods.any (fun p => p.sku == r.sku) then
      upsertProducts mts vens rs
        (prods.map (fun p => if p.sku == r.sku then
          { p with name := r.name, materialTypeId := mtId, vendorId := vId, par := par }
          else p)) nid
    else
      upsertProducts mts vens rs
        (prods ++ [{ id := nid, name := r.name, sku := r.sku,
                     materialTypeId := mtId, vendorId := vId, par := par }]) (nid + 1)

/-- One step of the `productToLocIds` accumulation: add `lid` to the set of
location ids of `pid` (insertion-ordered `Map`/`Set` semantics). -/
def addPidLid : List (Nat × List Nat) → Nat → Nat → List (Nat × List Nat)
  | [], pid, lid => [(pid, [lid])]
  | (p, ls) :: rest, pid, lid =>
    if p == pid then (p, if lid ∈ ls then ls else ls ++ [lid]) :: rest
    else (p, ls) :: addPidLid rest pid lid

/-- The `productToLocIds` accumulation loop (lines 328–337). -/
def buildProductToLocIds (prods : List Product) (locs : List (Nat × String))
    (defaultLocId : Option Nat) :
    List NormRow → List (Nat × List Nat) → List (Nat × List Nat)
  | [], acc => acc
  | r :: rs, acc =>
    match prods.find? (fun p => p.sku == r.sku) with
    | none => buildProductToLocIds prods locs defaultLocId rs acc
    | some p =>
      match (if r.location == "" then defaultLocId else lookupByName locs r.location) with
      | none => buildProductToLocIds prods locs defaultLocId rs acc
      | some lid => buildProductToLocIds prods locs defaultLocId rs (addPidLid acc p.id lid)

/-- Models `INSERT OR IGNORE INTO product_locations` for every location id of one
product. -/
def insertPairsOne (pls : List (Nat × Nat)) (pid : Nat) : List Nat → List (Nat × Nat)
  | [] => pls
  | lid :: ls =>
    insertPairsOne (if (pid, lid) ∈ pls then pls else pls ++ [(pid, lid)]) pid ls

/-- The assignment-insert batch (lines 339–345). -/
def insertPls (pls : List (Nat × Nat)) : List (Nat × List Nat) → List (Nat × Nat)
  | [] => pls
  | (pid, lids) :: rest => insertPls (insertPairsOne pls pid lids) rest

/-- Models `INSERT INTO on_hand ... ON CONFLICT(product_id, location_id) DO UPDATE
SET qty=excluded.qty`. -/
def upsertOnHandList (oh : List OnHandRow) (pid lid : Nat) (qty : ℚ) : List OnHandRow :=
  if oh.any (fun e => e.productId == pid && e.locationId == lid) then
    oh.map (fun e => if e.productId == pid && e.locationId == lid then
      { e with qty := qty } else e)
  else oh ++ [⟨pid, lid, qty⟩]

/-- The on-hand upsert loop of the import handler (lines 350–368), over the
rows that supply both a location and an on-hand value; returns the new
`on_hand` table and the statement count `onHandUpserts`. -/
def applyOnHandRows (prods : List Product) (locs : List (Nat × String)) :
    List NormRow → List OnHandRow → Nat → List OnHandRow × Nat
  | [], oh, cnt => (oh, cnt)
  | r :: rs, oh, cnt =>
    match prods.find? (fun p => p.sku == r.sku), lookupByName locs r.location with
    | some p, some lid =>
      applyOnHandRows prods locs rs (upsertOnHandList oh p.id lid (toNum1 r.on_hand)) (cnt + 1)
    | _, _ => applyOnHandRows prods locs rs oh cnt

/-- The result summary of the import handler (lines 371–379). -/
structure ImportSummary where
  rows_received : Nat
  rows_imported : Nat
  locations_seen : Nat
  material_types_seen : Nat
  vendors_seen : Nat
  on_hand_upserts : Nat
deriving DecidableEq, Repr

/-- The body of the import handler after validation (lines 252–379):
default-location synthesis, reference-table upserts, product upserts,
additive location assignment, on-hand upserts, and the summary (with
`rows_received` filled in by the caller). -/
def importCore (db : Db) (norm : List NormRow) : Db × ImportSummary :=
  let locNames0 := dedup ((norm.map (·.location)).filter (fun s => !(s == "")))
  let mtNames := dedup ((norm.map (·.material_type)).filter (fun s => !(s == "")))
  let vendorNames := dedup ((norm.map (·.vendor)).filter (fun s => !(s == "")))
  -- lines 258–266: if no row names a location, fall back to the first
  -- existing location, or synthesize "Main" when the table is empty
  let start :=
    if locNames0.isEmpty then
      match db.locations with
      | [] => (["Main"], db.locations ++ [(db.nextLocationId, "Main")],
               db.nextLocationId + 1)
      | (_, n) :: _ => ([n], db.locations, db.nextLocationId)
    else (locNames0, db.locations, db.nextLocationId)
  let locNames := start.1
  let r1 := insertNames start.2.1 start.2.2 locNames
  let locs := r1.1
  let r2 := insertNames db.materialTypes db.nextMaterialTypeId mtNames
  let r3 := insertNames db.vendors db.nextVendorId vendorNames
  let r4 := upsertProducts r2.1 r3.1 norm db.products db.nextProductId
  let prods := r4.1
  let defaultLocId := match locNames with
    | [] => none
    | n :: _ => lookupByName locs n
  let p2l := buildProductToLocIds prods locs defaultLocId norm []
  let pls := insertPls db.productLocations p2l
  let ohRows := norm.filter (fun r => !(r.location == "") && r.on_hand.isSome)
  let r5 := applyOnHandRows prods locs ohRows db.onHand 0
  ({ locations := locs, materialTypes := r2.1, vendors := r3.1,
     products := prods, productLocations := pls, onHand := r5.1,
     nextLocationId := r1.2, nextMaterialTypeId := r2.2,
     nextVendorId := r3.2, nextProductId := r4.2 },
   { rows_received := 0, rows_imported := norm.length,
     locations_seen := locNames.length,
     material_types_seen := mtNames.length,
     vendors_seen := vendorNames.length,
     on_hand_upserts := r5.2 })

/-- The import handler (`POST /api/import`, lines 214–380), start to end:
the two validation rejections, then `importCore` on the normalized rows,
with `rows_received` taken from the raw row count. -/
def runImport (db : Db) (rows : List RawImportRow) :
    Except String (Db × ImportSummary) :=
  if rows.isEmpty then .error "rows[] is required"
  else
    let norm := normRows rows
    if norm.isEmpty then .error "No valid rows found. Each row needs sku + name."
    else
      let r := importCore db norm
      .ok (r.1, { r.2 with rows_received := rows.length })

/-! ## C6: malformed rows are silently excluded -/

theorem runImport_eq (db : Db) (rows : List RawImportRow) :
    runImport db rows =
      if rows.isEmpty then .error "rows[] is required"
      else if (normRows rows).isEmpty then
        .error "No valid rows found. Each row needs sku + name."
      else .ok ((importCore db (normRows rows)).1,
        { (importCore db (normRows rows)).2 with rows_received := rows.length }) := rfl

theorem normRows_append (a b : List RawImportRow) :
    normRows (a ++ b) = normRows a ++ normRows b := by
  simp [normRows, List.filter_append]

/-- A row whose trimmed SKU or trimmed name is empty does not survive
normalization. -/
theorem normRows_singleton_malformed {bad : RawImportRow}
    (h : jsTrim (bad.sku.getD "") = "" ∨ jsTrim (bad.name.getD "") = "") :
    normRows [bad] = [] := by
  rcases h with h | h <;> simp [normRows, normRow, h]

/-- C6. A row missing `sku` or `name` is silently excluded from all
downstream processing of the import: inserting such a row anywhere into a
batch leaves the resulting store and every summary count unchanged except
`rows_received`, which grows by one; in particular the acceptance/rejection
of the call is unchanged (`toOption` is `none` on both sides or `some` on
both sides). -/
theorem C6_import_excludes_malformed_rows
    (db : Db) (xs ys : List RawImportRow) (bad : RawImportRow)
    (h : jsTrim (bad.sku.getD "") = "" ∨ jsTrim (bad.name.getD "") = "") :
    (runImport db (xs ++ bad :: ys)).toOption =
      (runImport db (xs ++ ys)).toOption.map
        (fun p => (p.1, { p.2 with rows_received := p.2.rows_received + 1 })) := by
  have hnorm : normRows (xs ++ bad :: ys) = normRows (xs ++ ys) := by
    have h1 : xs ++ bad :: ys = xs ++ ([bad] ++ ys) := by simp
    rw [h1, normRows_append, normRows_append, normRows_singleton_malformed h,
      List.nil_append, ← normRows_append]
  have hlen : (xs ++ bad :: ys).length = (xs ++ ys).length + 1 := by
    simp only [List.length_append, List.length_cons]
    omega
  have hne1 : (xs ++ bad :: ys).isEmpty = false := by
    cases xs <;> rfl
  rw [runImport_eq, runImport_eq, hnorm, hne1]
  by_cases h2 : (normRows (xs ++ ys)).isEmpty = true
  · -- no valid rows at all: both calls are rejected
    by_cases h3 : (xs ++ ys).isEmpty = true <;> simp [h2, h3, Except.toOption]
  · -- at least one valid row: both calls succeed and agree up to the count
    have h3 : (xs ++ ys).isEmpty = false := by
      cases hxy : (xs ++ ys) with
      | nil => exact absurd (by rw [hxy]; rfl) h2
      | cons a l => rfl
    simp [h2, h3, hlen, Except.toOption]

/-- Witness for C6: a malformed row (missing `sku`) appended to a singleton
batch. -/
def c6Good : RawImportRow := { sku := some "S1", name := some "Widget" }

def c6Bad : RawImportRow := { name := some "NoSku" }

theorem C6_import_excludes_malformed_rows_witness :
    (runImport emptyDb ([c6Good] ++ c6Bad :: [])).toOption =
      (runImport emptyDb ([c6Good] ++ [])).toOption.map
        (fun p => (p.1, { p.2 with rows_received := p.2.rows_received + 1 })) :=
  C6_import_excludes_malformed_rows emptyDb [c6Good] [] c6Bad (Or.inl (by decide))

/-! ## C7: import is additive-only on product-location assignments -/

theorem mem_insertPairsOne {pr : Nat × Nat} :
    ∀ (ls : List Nat) (pls : List (Nat × Nat)) (pid : Nat),
      pr ∈ pls → pr ∈ insertPairsOne pls pid ls
  | [], _, _, hpr => hpr
  | lid :: ls, pls, pid, hpr => by
    rw [insertPairsOne]
    apply mem_insertPairsOne ls
    by_cases hmem : (pid, lid) ∈ pls
    · rw [if_pos hmem]; exact hpr
    · rw [if_neg hmem]; exact List.mem_append_left _ hpr

theorem mem_insertPls {pr : Nat × Nat} :
    ∀ (m : List (Nat × List Nat)) (pls : List (Nat × Nat)),
      pr ∈ pls → pr ∈ insertPls pls m
  | [], _, hpr => hpr
  | (pid, lids) :: rest, pls, hpr => by
    rw [insertPls]
    exact mem_insertPls rest _ (mem_insertPairsOne lids pls pid hpr)

theorem importCore_pl_superset (db : Db) (norm : List NormRow)
    (pr : Nat × Nat) (hpr : pr ∈ db.productLocations) :
    pr ∈ (importCore db norm).1.productLocations := by
  show pr ∈ insertPls db.productLocations _
  exact mem_insertPls _ _ hpr

/-- The two-step scenario of the claim: import SKU `"X"` against location
`"A"` on an empty store, then import the same SKU against location `"B"`. -/
def c7RowA : RawImportRow := { sku := some "X", name := some "Prod", location := some "A" }

def c7RowB : RawImportRow := { sku := some "X", name := some "Prod", location := some "B" }

/-- The store after the two imports of the scenario (`none` if either call
is rejected). -/
def c7AfterTwo : Option Db :=
  match runImport emptyDb [c7RowA] with
  | .ok (d, _) =>
    match runImport d [c7RowB] with
    | .ok (d2, _) => some d2
    | .error _ => none
  | .error _ => none

/-- C7. Import never removes a product-location assignment: every
assignment present before an accepted import is present afterwards; and in
the concrete scenario, importing SKU `"X"` against location `"A"` and then
the same SKU against location `"B"` leaves the product (id 1) assigned to
both locations (ids 1 and 2). -/
theorem C7_import_additive_assignments :
    (∀ (db : Db) (rows : List RawImportRow) (out : Db × ImportSummary),
      runImport db rows = .ok out →
      ∀ pr ∈ db.productLocations, pr ∈ out.1.productLocations) ∧
    (c7AfterTwo.map (fun d =>
      decide ((1, 1) ∈ d.productLocations) && decide ((1, 2) ∈ d.productLocations)))
      = some true := by
  constructor
  · intro db rows out hok pr hpr
    rw [runImport_eq] at hok
    by_cases h1 : rows.isEmpty = true
    · rw [if_pos h1] at hok; exact absurd hok (by simp)
    · rw [if_neg h1] at hok
      by_cases h2 : (normRows rows).isEmpty = true
      · rw [if_pos h2] at hok; exact absurd hok (by simp)
      · rw [if_neg h2] at hok
        injection hok with h3
        rw [← h3]
        exact importCore_pl_superset db (normRows rows) pr hpr
  · rfl

/-- Witness for C7: a pre-existing assignment `(7, 9)` survives a concrete
accepted import. -/
def c7DbPre : Db := { emptyDb with productLocations := [(7, 9)] }

theorem C7_import_additive_assignments_witness :
    ((runImport c7DbPre [c7RowA]).toOption.map
      (fun p => decide ((7, 9) ∈ p.1.productLocations))) = some true := by
  cases hrun : runImport c7DbPre [c7RowA] with
  | error e =>
    have hsome : (runImport c7DbPre [c7RowA]).toOption.isSome = true := rfl
    rw [hrun] at hsome
    simp [Except.toOption] at hsome
  | ok out =>
    have hmem := C7_import_additive_assignments.1 c7DbPre [c7RowA] out hrun
      (7, 9) (by decide)
    show some (decide ((7, 9) ∈ out.1.productLocations)) = some true
    rw [decide_eq_true hmem]

/-! ## C8: import normalization trims the SKU but does not uppercase it -/

theorem upsertProducts_sku_mem (mts vens : List (Nat × String)) :
    ∀ (rs : List NormRow) (prods : List Product) (nid : Nat),
      ∀ p ∈ (upsertProducts mts vens rs prods nid).1,
        p ∈ prods ∨ ∃ r ∈ rs, p.sku = r.sku := by
  intro rs
  induction rs with
  | nil => exact fun prods nid p hp => Or.inl hp
  | cons r rs ih =>
    intro prods nid p hp
    rw [upsertProducts] at hp
    by_cases hex : prods.any (fun q => q.sku == r.sku) = true
    · rw [if_pos hex] at hp
      rcases ih _ _ p hp with hmem | ⟨r', hr', hsku⟩
      · rcases List.mem_map.mp hmem with ⟨q, hq, rfl⟩
        by_cases hqs : (q.sku == r.sku) = true
        · rw [if_pos hqs]
          exact Or.inr ⟨r, List.mem_cons_self r rs, eq_of_beq hqs⟩
        · rw [if_neg hqs]
          exact Or.inl hq
      · exact Or.inr ⟨r', List.mem_cons_of_mem r hr', hsku⟩
    · rw [if_neg hex] at hp
      rcases ih _ _ p hp with hmem | ⟨r', hr', hsku⟩
      · rcases List.mem_append.mp hmem with hq | hnew
        · exact Or.inl hq
        · rcases List.mem_singleton.mp hnew with rfl
          exact Or.inr ⟨r, List.mem_cons_self r rs, rfl⟩
      · exact Or.inr ⟨r', List.mem_cons_of_mem r hr', hsku⟩

theorem importCore_products_mem (db : Db) (norm : List NormRow)
    (p : Product) (hp : p ∈ (importCore db norm).1.products) :
    p ∈ db.products ∨ ∃ r ∈ norm, p.sku = r.sku := by
  have hp' : p ∈ (upsertProducts
      (insertNames db.materialTypes db.nextMaterialTypeId
        (dedup ((norm.map (·.material_type)).filter (fun s => !(s == ""))))).1
      (insertNames db.vendors db.nextVendorId
        (dedup ((norm.map (·.vendor)).filter (fun s => !(s == ""))))).1
      norm db.products db.nextProductId).1 := hp
  exact upsertProducts_sku_mem _ _ norm db.products db.nextProductId p hp'

/-- C8 counterexample: importing a row whose raw SKU is `" ab "` succeeds
and stores the product under the SKU `"ab"` — trimmed but still lowercase,
refuting the claim that the stored SKU contains no lowercase letters. -/
theorem C8_counterexample_lowercase_sku :
    ((runImport emptyDb [{ sku := some " ab ", name := some "n" }]).toOption.map
      (fun p => p.1.products.map Product.sku)) = some ["ab"]
    ∧ "ab".data.any Char.isLower = true := by
  exact ⟨rfl, by decide⟩

/-- C8 (amended). For every accepted import, normalization trims the SKU
(and the other string fields) before any catalog lookup or write, but does
not change its case: every product after the import is either untouched
from before or is stored under a SKU equal to the trimmed raw SKU of one of
the submitted rows (case preserved). -/
theorem C8_amended_import_sku_trimmed
    (db : Db) (rows : List RawImportRow) (out : Db × ImportSummary)
    (hok : runImport db rows = .ok out) :
    ∀ p ∈ out.1.products, p ∈ db.products ∨
      ∃ r ∈ rows, p.sku = jsTrim (r.sku.getD "") := by
  rw [runImport_eq] at hok
  by_cases h1 : rows.isEmpty = true
  · rw [if_pos h1] at hok; exact absurd hok (by simp)
  · rw [if_neg h1] at hok
    by_cases h2 : (normRows rows).isEmpty = true
    · rw [if_pos h2] at hok; exact absurd hok (by simp)
    · rw [if_neg h2] at hok
      injection hok with h3
      rw [← h3]
      intro p hp
      rcases importCore_products_mem db (normRows rows) p hp with h | ⟨r, hr, hsku⟩
      · exact Or.inl h
      · rcases List.mem_filter.mp hr with ⟨hmem, _⟩
        rcases List.mem_map.mp hmem with ⟨raw, hraw, rfl⟩
        exact Or.inr ⟨raw, hraw, hsku⟩

def c8Row : RawImportRow := { sku := some " ab ", name := some "n" }

def c8Prod : Product := { id := 1, name := "n", sku := "ab",
                          materialTypeId := none, vendorId := none, par := 0 }

/-- Witness for C8's amended theorem at the concrete one-row import. -/
theorem C8_amended_import_sku_trimmed_witness :
    c8Prod ∈ emptyDb.products ∨
      ∃ r ∈ [c8Row], c8Prod.sku = jsTrim (r.sku.getD "") := by
  cases hrun : runImport emptyDb [c8Row] with
  | error e =>
    have hsome : (runImport emptyDb [c8Row]).toOption.isSome = true := rfl
    rw [hrun] at hsome
    simp [Except.toOption] at hsome
  | ok out =>
    refine C8_amended_import_sku_trimmed emptyDb [c8Row] out hrun c8Prod ?_
    have h0 : (runImport emptyDb [c8Row]).toOption.map (fun o => o.1.products)
        = some [c8Prod] := rfl
    rw [hrun] at h0
    have h1 : out.1.products = [c8Prod] := by
      simpa [Except.toOption] using h0
    rw [h1]
    exact List.mem_singleton.mpr rfl

/-! ## C3: dedup mode `"skip"` (modelled from the spec) -/

/-- Modelled from the spec: the server-side implementation of the import
dedup mode is missing from the repository — the `/api/import` handler in
`functions/api/[[route]].ts` accepts no mode and always updates on SKU
conflict, while the `ImportSettings` UI component selects a `dedupMode`
(`"update" | "skip"`) and renders `products_inserted`, `products_updated`
and `product_updates_skipped` from an endpoint that is not present.  This
definition models §4.2 step 4 of the spec for mode `"skip"`: a row whose
SKU already exists leaves the product record untouched; only genuinely new
SKUs are inserted. -/
def skipNewProduct (mts vens : List (Nat × String)) (r : NormRow) (nid : Nat) : Product :=
  { id := nid, name := r.name, sku := r.sku,
    materialTypeId := if r.material_type == "" then none
                      else lookupByName mts r.material_type,
    vendorId := if r.vendor == "" then none else lookupByName vens r.vendor,
    par := toNum1 r.par }

/-- Modelled from the spec: the product step of an import run with dedup
mode `"skip"` (spec §4.2 step 4). -/
def importProductsSkip (mts vens : List (Nat × String)) :
    List NormRow → List Product → Nat → List Product × Nat
  | [], prods, nid => (prods, nid)
  | r :: rs, prods, nid =>
    if prods.any (fun p => p.sku == r.sku) then
      importProductsSkip mts vens rs prods nid
    else
      importProductsSkip mts vens rs
        (prods ++ [skipNewProduct mts vens r nid]) (nid + 1)

theorem importProductsSkip_shape (mts vens : List (Nat × String)) :
    ∀ (rs : List NormRow) (prods : List Product) (nid : Nat),
      ∃ nl, (importProductsSkip mts vens rs prods nid).1 = prods ++ nl ∧
        ∀ p ∈ nl, ∀ q ∈ prods, p.sku ≠ q.sku := by
  intro rs
  induction rs with
  | nil =>
    intro prods nid
    exact ⟨[], by simp [importProductsSkip], by simp⟩
  | cons r rs ih =>
    intro prods nid
    rw [importProductsSkip]
    by_cases hex : prods.any (fun p => p.sku == r.sku) = true
    · rw [if_pos hex]
      exact ih prods nid
    · rw [if_neg hex]
      obtain ⟨nl, hnl, hprop⟩ := ih (prods ++ [skipNewProduct mts vens r nid]) (nid + 1)
      refine ⟨skipNewProduct mts vens r nid :: nl, ?_, ?_⟩
      · rw [hnl]
        simp
      · intro p hp q hq
        rcases List.mem_cons.mp hp with rfl | hp2
        · intro heq
          have hsku : q.sku == r.sku := by
            have hns : (skipNewProduct mts vens r nid).sku = r.sku := rfl
            rw [hns] at heq
            rw [← heq]
            exact beq_self_eq_true r.sku
          exact hex (List.any_eq_true.mpr ⟨q, hq, hsku⟩)
        · exact hprop p hp2 q (List.mem_append_left _ hq)

/-- C3 (spec-modelled). Under dedup mode `"skip"`, every product whose SKU
already exists in the catalog is left completely unmodified (the original
catalog is an unchanged prefix of the result, record for record — name,
material type, vendor and PAR included), and every inserted product carries
a SKU that did not exist in the catalog before. -/
theorem C3_skip_mode_frame (mts vens : List (Nat × String))
    (rs : List NormRow) (prods : List Product) (nid : Nat) :
    (importProductsSkip mts vens rs prods nid).1.take prods.length = prods ∧
    ∀ p ∈ (importProductsSkip mts vens rs prods nid).1.drop prods.length,
      ∀ q ∈ prods, p.sku ≠ q.sku := by
  obtain ⟨nl, hnl, hprop⟩ := importProductsSkip_shape mts vens rs prods nid
  constructor
  · rw [hnl, List.take_left]
  · rw [hnl, List.drop_left]
    exact hprop

def c3Existing : Product :=
  { id := 1, name := "Orig", sku := "S", materialTypeId := none,
    vendorId := none, par := 0 }

def c3Rows : List NormRow :=
  [{ location := "", material_type := "", vendor := "", sku := "S",
     name := "New", par := none, on_hand := none },
   { location := "", material_type := "", vendor := "", sku := "T",
     name := "Fresh", par := none, on_hand := none }]

/-- Witness for C3 at a concrete catalog and batch: a duplicate-SKU row and
a fresh-SKU row against a one-product catalog. -/
theorem C3_skip_mode_frame_witness :
    (importProductsSkip [] [] c3Rows [c3Existing] 2).1.take 1 = [c3Existing] :=
  (C3_skip_mode_frame [] [] c3Rows [c3Existing] 2).1

/-! ## C4: stored PAR / on-hand values after state-changing operations

The state-changing operations named by the invariant: direct product
create (`POST /api/products`), direct product edit (`PUT /api/products/:id`),
direct on-hand write (`PUT /api/on-hand`), and the bulk import.  The direct
handlers clamp with `Math.max(0, round1(...))`; the import coerces with
`toNum1`, which rounds but does not clamp.  (The create/update SQL lists
the columns `name, sku, material_type_id, par`; we model the write of those
computed fields.) -/

inductive AdminOp where
  | createProduct (name sku : String) (materialTypeId vendorId : Option Nat)
      (par : ℚ) (locationIds : List Nat)
  | updateProduct (id : Nat) (name sku : String) (materialTypeId vendorId : Option Nat)
      (par : ℚ) (locationIds : List Nat)
  | putOnHand (productId locationId : Nat) (qty : ℚ)
  | importBatch (rows : List RawImportRow)

def AdminOp.isImport : AdminOp → Bool
  | .importBatch _ => true
  | _ => false

/-- One state-changing request against the store.  A handler that rejects
the request (validation failure or uniqueness conflict) leaves the store
unchanged. -/
def applyOp (db : Db) : AdminOp → Db
  | .createProduct name sku mtId _vId par lids =>
    -- POST /api/products (lines 416–451): trim, validate, clamp par,
    -- insert (fails on duplicate SKU), then INSERT OR IGNORE assignments
    if (jsTrim name == "") || (jsTrim sku == "") || lids.isEmpty then db
    else if db.products.any (fun p => p.sku == jsTrim sku) then db
    else
      { db with
        products := db.products ++
          [{ id := db.nextProductId, name := jsTrim name, sku := jsTrim sku,
             materialTypeId := mtId, vendorId := none,
             par := max 0 (round1q par) }],
        productLocations := insertPairsOne db.productLocations db.nextProductId lids,
        nextProductId := db.nextProductId + 1 }
  | .updateProduct id name sku mtId _vId par lids =>
    -- PUT /api/products/:id (lines 453–489): trim, validate, clamp par,
    -- UPDATE ... WHERE id (fails on duplicate SKU of another product),
    -- then full-replace the product's location assignments
    if (jsTrim name == "") || (jsTrim sku == "") || lids.isEmpty then db
    else if db.products.any (fun p => (p.sku == jsTrim sku) && !(p.id == id)) then db
    else
      { db with
        products := db.products.map (fun p => if p.id == id then
          { p with name := jsTrim name
                   sku := jsTrim sku
                   materialTypeId := mtId
                   par := max 0 (round1q par) } else p),
        productLocations :=
          insertPairsOne (db.productLocations.filter (fun pr => !(pr.1 == id))) id lids }
  | .putOnHand pid lid qty =>
    -- PUT /api/on-hand (lines 526–552): clamp qty, require the assignment,
    -- upsert the (product, location) quantity
    if (pid, lid) ∈ db.productLocations then
      { db with onHand := upsertOnHandList db.onHand pid lid (max 0 (round1q qty)) }
    else db
  | .importBatch rows =>
    match runImport db rows with
    | .ok (db', _) => db'
    | .error _ => db

theorem isTenth_toNum1 (v : Option JsNum) : IsTenth (toNum1 v) := by
  cases v with
  | none => exact ⟨0, by norm_num [toNum1]⟩
  | some w => exact isTenth_round1 w

/-- Every stored PAR and on-hand quantity is an integer count of tenths. -/
def DbTenths (db : Db) : Prop :=
  (∀ p ∈ db.products, IsTenth p.par) ∧ (∀ e ∈ db.onHand, IsTenth e.qty)

/-- Every stored PAR and on-hand quantity is non-negative. -/
def DbNonneg (db : Db) : Prop :=
  (∀ p ∈ db.products, 0 ≤ p.par) ∧ (∀ e ∈ db.onHand, 0 ≤ e.qty)

theorem upsertProducts_par_pred (P : ℚ → Prop) (mts vens : List (Nat × String))
    (hto : ∀ v, P (toNum1 v)) :
    ∀ (rs : List NormRow) (prods : List Product) (nid : Nat),
      (∀ p ∈ prods, P p.par) →
      ∀ p ∈ (upsertProducts mts vens rs prods nid).1, P p.par := by
  intro rs
  induction rs with
  | nil => exact fun prods nid h => h
  | cons r rs ih =>
    intro prods nid h p hp
    rw [upsertProducts] at hp
    by_cases hex : prods.any (fun q => q.sku == r.sku) = true
    · rw [if_pos hex] at hp
      refine ih _ _ ?_ p hp
      intro q hq
      rcases List.mem_map.mp hq with ⟨q0, hq0, rfl⟩
      by_cases hqs : (q0.sku == r.sku) = true
      · rw [if_pos hqs]; exact hto r.par
      · rw [if_neg hqs]; exact h q0 hq0
    · rw [if_neg hex] at hp
      refine ih _ _ ?_ p hp
      intro q hq
      rcases List.mem_append.mp hq with hq1 | hq2
      · exact h q hq1
      · rcases List.mem_singleton.mp hq2 with rfl
        exact hto r.par

theorem upsertOnHandList_qty_pred (P : ℚ → Prop) (oh : List OnHandRow)
    (pid lid : Nat) (q : ℚ) (h : ∀ e ∈ oh, P e.qty) (hq : P q) :
    ∀ e ∈ upsertOnHandList oh pid lid q, P e.qty := by
  intro e he
  rw [upsertOnHandList] at he
  by_cases hx : oh.any (fun e => e.productId == pid && e.locationId == lid) = true
  · rw [if_pos hx] at he
    rcases List.mem_map.mp he with ⟨e0, he0, rfl⟩
    by_cases hm : (e0.productId == pid && e0.locationId == lid) = true
    · rw [if_pos hm]; exact hq
    · rw [if_neg hm]; exact h e0 he0
  · rw [if_neg hx] at he
    rcases List.mem_append.mp he with h1 | h2
    · exact h _ h1
    · rcases List.mem_singleton.mp h2 with rfl; exact hq

theorem applyOnHandRows_qty_pred (P : ℚ → Prop) (hto : ∀ v, P (toNum1 v))
    (prods : List Product) (locs : List (Nat × String)) :
    ∀ (rs : List NormRow) (oh : List OnHandRow) (cnt : Nat),
      (∀ e ∈ oh, P e.qty) →
      ∀ e ∈ (applyOnHandRows prods locs rs oh cnt).1, P e.qty := by
  intro rs
  induction rs with
  | nil => exact fun oh cnt h => h
  | cons r rs ih =>
    intro oh cnt h e he
    rw [applyOnHandRows] at he
    split at he
    · exact ih _ _ (upsertOnHandList_qty_pred P _ _ _ _ h (hto r.on_hand)) e he
    · exact ih _ _ h e he

theorem importCore_tenths (db : Db) (norm : List NormRow) (h : DbTenths db) :
    DbTenths (importCore db norm).1 := by
  obtain ⟨hp, hh⟩ := h
  constructor
  · intro p hmem
    exact upsertProducts_par_pred IsTenth _ _ isTenth_toNum1
      norm db.products db.nextProductId hp p hmem
  · intro e hmem
    exact applyOnHandRows_qty_pred IsTenth isTenth_toNum1 _ _ _ db.onHand 0 hh e hmem

theorem runImport_tenths (db : Db) (rows : List RawImportRow)
    (out : Db × ImportSummary) (hok : runImport db rows = .ok out)
    (h : DbTenths db) : DbTenths out.1 := by
  rw [runImport_eq] at hok
  by_cases h1 : rows.isEmpty = true
  · rw [if_pos h1] at hok; exact absurd hok (by simp)
  · rw [if_neg h1] at hok
    by_cases h2 : (normRows rows).isEmpty = true
    · rw [if_pos h2] at hok; exact absurd hok (by simp)
    · rw [if_neg h2] at hok
      injection hok with h3
      rw [← h3]
      exact importCore_tenths db (normRows rows) h

theorem applyOp_tenths (db : Db) (op : AdminOp) (h : DbTenths db) :
    DbTenths (applyOp db op) := by
  obtain ⟨hp, hh⟩ := h
  cases op with
  | createProduct name sku mtId vId par lids =>
    rw [applyOp]
    by_cases h1 : ((jsTrim name == "") || (jsTrim sku == "") || lids.isEmpty) = true
    · rw [if_pos h1]; exact ⟨hp, hh⟩
    · rw [if_neg h1]
      by_cases h2 : db.products.any (fun p => p.sku == jsTrim sku) = true
      · rw [if_pos h2]; exact ⟨hp, hh⟩
      · rw [if_neg h2]
        refine ⟨?_, hh⟩
        intro p hmem
        rcases List.mem_append.mp hmem with h3 | h4
        · exact hp p h3
        · rcases List.mem_singleton.mp h4 with rfl
          exact isTenth_max_zero (isTenth_round1q par)
  | updateProduct id name sku mtId vId par lids =>
    rw [applyOp]
    by_cases h1 : ((jsTrim name == "") || (jsTrim sku == "") || lids.isEmpty) = true
    · rw [if_pos h1]; exact ⟨hp, hh⟩
    · rw [if_neg h1]
      by_cases h2 : db.products.any (fun p => (p.sku == jsTrim sku) && !(p.id == id)) = true
      · rw [if_pos h2]; exact ⟨hp, hh⟩
      · rw [if_neg h2]
        refine ⟨?_, hh⟩
        intro p hmem
        rcases List.mem_map.mp hmem with ⟨q, hq, rfl⟩
        by_cases h3 : (q.id == id) = true
        · rw [if_pos h3]
          exact isTenth_max_zero (isTenth_round1q par)
        · rw [if_neg h3]
          exact hp q hq
  | putOnHand pid lid qty =>
    rw [applyOp]
    by_cases h1 : (pid, lid) ∈ db.productLocations
    · rw [if_pos h1]
      exact ⟨hp, upsertOnHandList_qty_pred IsTenth _ _ _ _ hh
        (isTenth_max_zero (isTenth_round1q qty))⟩
    · rw [if_neg h1]; exact ⟨hp, hh⟩
  | importBatch rows =>
    rw [applyOp]
    split
    · next db' s hok => exact runImport_tenths db rows (db', s) hok ⟨hp, hh⟩
    · exact ⟨hp, hh⟩

theorem applyOp_nonneg (db : Db) (op : AdminOp) (hni : op.isImport = false)
    (h : DbNonneg db) : DbNonneg (applyOp db op) := by
  obtain ⟨hp, hh⟩ := h
  cases op with
  | createProduct name sku mtId vId par lids =>
    rw [applyOp]
    by_cases h1 : ((jsTrim name == "") || (jsTrim sku == "") || lids.isEmpty) = true
    · rw [if_pos h1]; exact ⟨hp, hh⟩
    · rw [if_neg h1]
      by_cases h2 : db.products.any (fun p => p.sku == jsTrim sku) = true
      · rw [if_pos h2]; exact ⟨hp, hh⟩
      · rw [if_neg h2]
        refine ⟨?_, hh⟩
        intro p hmem
        rcases List.mem_append.mp hmem with h3 | h4
        · exact hp p h3
        · rcases List.mem_singleton.mp h4 with rfl
          exact le_max_left 0 _
  | updateProduct id name sku mtId vId par lids =>
    rw [applyOp]
    by_cases h1 : ((jsTrim name == "") || (jsTrim sku == "") || lids.isEmpty) = true
    · rw [if_pos h1]; exact ⟨hp, hh⟩
    · rw [if_neg h1]
      by_cases h2 : db.products.any (fun p => (p.sku == jsTrim sku) && !(p.id == id)) = true
      · rw [if_pos h2]; exact ⟨hp, hh⟩
      · rw [if_neg h2]
        refine ⟨?_, hh⟩
        intro p hmem
        rcases List.mem_map.mp hmem with ⟨q, hq, rfl⟩
        by_cases h3 : (q.id == id) = true
        · rw [if_pos h3]; exact le_max_left 0 _
        · rw [if_neg h3]; exact hp q hq
  | putOnHand pid lid qty =>
    rw [applyOp]
    by_cases h1 : (pid, lid) ∈ db.productLocations
    · rw [if_pos h1]
      exact ⟨hp, upsertOnHandList_qty_pred (fun q => 0 ≤ q) _ _ _ _ hh (le_max_left 0 _)⟩
    · rw [if_neg h1]; exact ⟨hp, hh⟩
  | importBatch rows =>
    exact absurd hni (by simp [AdminOp.isImport])

theorem runOps_tenths :
    ∀ (ops : List AdminOp) (db : Db), DbTenths db →
      DbTenths (ops.foldl applyOp db)
  | [], _, h => h
  | op :: ops, db, h => runOps_tenths ops _ (applyOp_tenths db op h)

theorem runOps_nonneg :
    ∀ (ops : List AdminOp) (db : Db), (∀ op ∈ ops, op.isImport = false) →
      DbNonneg db → DbNonneg (ops.foldl applyOp db)
  | [], _, _, h => h
  | op :: ops, db, hall, h =>
    runOps_nonneg ops _ (fun o ho => hall o (List.mem_cons_of_mem _ ho))
      (applyOp_nonneg db op (hall op (List.mem_cons_self _ _)) h)

/-- C4 (amended). After every sequence of state-changing operations
(direct product create/edit, direct on-hand write, bulk import) starting
from the empty store, every stored PAR and on-hand quantity carries at most
one decimal digit (an exact integer count of tenths); and when the sequence
contains no bulk import, every stored value is additionally ≥ 0.  (The
bulk path rounds via `toNum1` but does not clamp, so the ≥ 0 half fails
for imports — see the counterexample.) -/
theorem C4_amended_stored_values (ops : List AdminOp) :
    DbTenths (ops.foldl applyOp emptyDb) ∧
    ((∀ op ∈ ops, op.isImport = false) → DbNonneg (ops.foldl applyOp emptyDb)) := by
  constructor
  · exact runOps_tenths ops emptyDb
      ⟨fun p hp => absurd hp (List.not_mem_nil p),
       fun e he => absurd he (List.not_mem_nil e)⟩
  · intro hall
    exact runOps_nonneg ops emptyDb hall
      ⟨fun p hp => absurd hp (List.not_mem_nil p),
       fun e he => absurd he (List.not_mem_nil e)⟩

/-- Witness for C4's amended theorem on a concrete import-free sequence. -/
theorem C4_amended_stored_values_witness :
    DbNonneg ([AdminOp.putOnHand 1 1 5].foldl applyOp emptyDb) :=
  (C4_amended_stored_values [AdminOp.putOnHand 1 1 5]).2 (by decide)

/-- C4 counterexample: a bulk import with `par = -5` stores a negative PAR
(the import path does not clamp to 0), refuting "every stored PAR value is
≥ 0 after every state-changing operation". -/
def c4Row : RawImportRow :=
  { sku := some "A", name := some "P", par := some (.num (-5)) }

theorem C4_counterexample_negative_par :
    ((applyOp emptyDb (.importBatch [c4Row])).products.map Product.par) = [(-5 : ℚ)]
    ∧ ¬ (0 : ℚ) ≤ (-5 : ℚ) := by
  constructor
  · have h0 : ((applyOp emptyDb (.importBatch [c4Row])).products.map Product.par)
        = [toNum1 (some (.num (-5)))] := rfl
    rw [h0]
    have h1 : toNum1 (some (JsNum.num (-5))) = (-5 : ℚ) := by
      show round1q (-5) = (-5 : ℚ)
      rw [show ((-5 : ℚ)) = (((-5 : ℤ) : ℚ)) by norm_num]
      exact round1q_intCast (-5)
    rw [h1]
  · norm_num

/-! ## C2: the emitted reorder report (API `/api/reorder` + UI grouping)

`Array.prototype.sort(c)` is a stable sort placing `a` before `b` exactly
when `c(a, b) ≤ 0`; it is embedded as a stable insertion sort with the
boolean predicate `leB a b ↔ c(a, b) ≤ 0`. -/

def insertLeB {α : Type} (leB : α → α → Bool) (x : α) : List α → List α
  | [] => [x]
  | y :: ys => if leB x y then x :: y :: ys else y :: insertLeB leB x ys

def sortLeB {α : Type} (leB : α → α → Bool) : List α → List α
  | [] => []
  | x :: xs => insertLeB leB x (sortLeB leB xs)

/-- Models `COALESCE(SUM(oh.qty), 0)` over the `LEFT JOIN on_hand` rows of one
product. -/
def sumQty (db : Db) (pid : Nat) : ℚ :=
  ((db.onHand.filter (fun h => h.productId == pid)).map (·.qty)).sum

/-- Models `mt.name` through the `LEFT JOIN material_types`. -/
def mtName (db : Db) (p : Product) : Option String :=
  p.materialTypeId.bind (fun i => ((db.materialTypes.find? (fun e => e.1 == i)).map (·.2)))

/-- One emitted row of the reorder handler (lines 600–608).  These are
exactly the emitted fields: the SELECT joins `vendors` but names no vendor
column, and the row literal carries no vendor field. -/
structure ApiReorderRow where
  product_id : Nat
  sku : String
  name : String
  material_type_name : Option String
  par : ℚ
  total_on_hand : ℚ
  to_order : ℤ
deriving DecidableEq, Repr

def mkApiRow (db : Db) (p : Product) : ApiReorderRow :=
  { product_id := p.id, sku := p.sku, name := p.name,
    material_type_name := mtName db p,
    par := max 0 (round1q p.par),
    total_on_hand := max 0 (round1q (sumQty db p.id)),
    to_order := toOrder p.par (sumQty db p.id) }

/-- The reorder handler's comparator (lines 613–620): material-type name
case-insensitively ascending, then `to_order` descending, then product
name case-insensitively ascending. -/
def apiCmpLe (a b : ApiReorderRow) : Bool :=
  let am := lowerStr (a.material_type_name.getD "")
  let bm := lowerStr (b.material_type_name.getD "")
  if am == bm then
    if a.to_order == b.to_order then decide (lowerStr a.name < lowerStr b.name)
    else decide (b.to_order < a.to_order)
  else decide (am < bm)

/-- The `/api/reorder` response (lines 576–622): all products (ordered by
name, as the SQL does), mapped to rows, filtered to `to_order > 0`, then
sorted with the handler's comparator. -/
def apiReorderRows (db : Db) : List ApiReorderRow :=
  let base := (sortLeB (fun p q => decide (p.name ≤ q.name)) db.products).map (mkApiRow db)
  let rows := base.filter (fun r => decide ((0:ℤ) < r.to_order))
  sortLeB apiCmpLe rows

/-- The row shape the `Reorder` UI component consumes (`ReorderRow` in
`src/ui/api.ts`), which declares a `vendor_name` field. -/
structure UiReorderRow where
  product_id : Nat
  sku : String
  name : String
  vendor_name : Option String
  material_type_name : Option String
  par : ℚ
  total_on_hand : ℚ
  to_order : ℤ
deriving DecidableEq, Repr

/-- Deserialization of an API row in the UI: the JSON emitted by the
handler has no `vendor_name` key, so the UI reads `undefined` (`none`). -/
def apiRowToUi (r : ApiReorderRow) : UiReorderRow :=
  { product_id := r.product_id, sku := r.sku, name := r.name,
    vendor_name := none,
    material_type_name := r.material_type_name, par := r.par,
    total_on_hand := r.total_on_hand, to_order := r.to_order }

/-- Models `(r.vendor_name ?? "No Vendor").trim() || "No Vendor"` (App.tsx 987). -/
def rowVendorKey (r : UiReorderRow) : String :=
  let s := jsTrim (r.vendor_name.getD "No Vendor")
  if s == "" then "No Vendor" else s

/-- Models `(r.material_type_name ?? "Uncategorized").trim() || "Uncategorized"`
(App.tsx 988). -/
def rowMatKey (r : UiReorderRow) : String :=
  let s := jsTrim (r.material_type_name.getD "Uncategorized")
  if s == "" then "Uncategorized" else s

/-- Insertion into the inner (material-name-keyed) insertion-ordered map. -/
def addMat : List (String × List UiReorderRow) → String → UiReorderRow →
    List (String × List UiReorderRow)
  | [], m, r => [(m, [r])]
  | (k, rs) :: rest, m, r =>
    if k == m then (k, rs ++ [r]) :: rest else (k, rs) :: addMat rest m r

/-- Insertion into the outer (vendor-name-keyed) insertion-ordered map. -/
def addVendor : List (String × List (String × List UiReorderRow)) → String → String →
    UiReorderRow → List (String × List (String × List UiReorderRow))
  | [], v, m, r => [(v, addMat [] m r)]
  | (k, mats) :: rest, v, m, r =>
    if k == v then (k, addMat mats m r) :: rest
    else (k, mats) :: addVendor rest v m r

/-- The accumulation loop of the `groups` `useMemo` (App.tsx 985–993). -/
def buildVendorMap : List UiReorderRow →
    List (String × List (String × List UiReorderRow)) →
    List (String × List (String × List UiReorderRow))
  | [], acc => acc
  | r :: rs, acc => buildVendorMap rs (addVendor acc (rowVendorKey r) (rowMatKey r) r)

/-- Models `a.toLowerCase().localeCompare(b.toLowerCase()) ≤ 0` for ASCII data. -/
def strLeCI (a b : String) : Bool :=
  decide (lowerStr a < lowerStr b) || (lowerStr a == lowerStr b)

/-- The sorting phase of the `groups` `useMemo` (App.tsx 995–1000): vendor
entries case-insensitively ascending, material entries likewise, rows of a
material group by `to_order` descending (stable). -/
def uiGroups (rows : List UiReorderRow) :
    List (String × List (String × List UiReorderRow)) :=
  (sortLeB (fun a b => strLeCI a.1 b.1) (buildVendorMap rows [])).map
    (fun e => (e.1,
      (sortLeB (fun a b => strLeCI a.1 b.1) e.2).map
        (fun me => (me.1, sortLeB (fun a b => decide (b.to_order ≤ a.to_order)) me.2))))

/-- The end-to-end emitted reorder report: the `/api/reorder` rows as
grouped by the `Reorder` UI component. -/
def reorderReport (db : Db) : List (String × List (String × List UiReorderRow)) :=
  uiGroups ((apiReorderRows db).map apiRowToUi)

/-- The failing input for C2: one product with vendor `"Acme"` and material
type `"Wood"`, PAR 5, nothing on hand. -/
def c2Prod : Product :=
  { id := 1, name := "Plank", sku := "P1",
    materialTypeId := some 1, vendorId := some 1, par := 5 }

def c2Db : Db :=
  { locations := [], materialTypes := [(1, "Wood")], vendors := [(1, "Acme")],
    products := [c2Prod], productLocations := [], onHand := [],
    nextLocationId := 1, nextMaterialTypeId := 2, nextVendorId := 2,
    nextProductId := 2 }

def c2ApiRow : ApiReorderRow :=
  { product_id := 1, sku := "P1", name := "Plank",
    material_type_name := some "Wood", par := 5, total_on_hand := 0,
    to_order := 5 }

def c2UiRow : UiReorderRow :=
  { product_id := 1, sku := "P1", name := "Plank", vendor_name := none,
    material_type_name := some "Wood", par := 5, total_on_hand := 0,
    to_order := 5 }

theorem round1q_five : round1q (5 : ℚ) = 5 := by
  rw [show (5:ℚ) = ((5:ℤ):ℚ) by norm_num]
  exact round1q_intCast 5

theorem round1q_zero : round1q (0 : ℚ) = 0 := by
  rw [show (0:ℚ) = ((0:ℤ):ℚ) by norm_num]
  exact round1q_intCast 0

theorem toOrder_five_zero : toOrder 5 0 = 5 := by
  rw [toOrder_def, round1q_five, round1q_zero]
  rw [show max (0:ℚ) 5 = 5 by norm_num, show max (0:ℚ) 0 = 0 by norm_num]
  rw [show max (0:ℚ) (5 - 0) = 5 by norm_num]
  rw [if_pos (by norm_num : (0:ℚ) < 5)]
  rw [show (5:ℚ) = ((50:ℤ):ℚ)/10 by norm_num]
  rw [ceil_sub_eps_of_tenth 50]
  rw [show ((50:ℤ):ℚ)/10 = ((5:ℤ):ℚ) by norm_num]
  exact Int.ceil_intCast 5

/-- C2, evaluated at the failing input.  The catalog assigns vendor
`"Acme"` (vendor id 1) to the only product, yet the emitted report places
the row under the `"No Vendor"` group: the reorder SELECT joins `vendors`
but emits no `vendor_name` field, so the UI's vendor grouping always reads
`undefined`.  (The `ReorderRow` type in `src/ui/api.ts` declares the
`vendor_name` field the handler never produces.) -/
theorem C2_code_bug_vendor_group_dropped :
    reorderReport c2Db = [("No Vendor", [("Wood", [c2UiRow])])]
    ∧ c2Db.vendors = [(1, "Acme")]
    ∧ (c2Db.products.map Product.vendorId) = [some 1] := by
  have hrow : mkApiRow c2Db c2Prod = c2ApiRow := by
    unfold mkApiRow
    rw [show sumQty c2Db c2Prod.id = 0 from rfl]
    rw [show c2Prod.par = (5:ℚ) from rfl]
    rw [round1q_five, round1q_zero, toOrder_five_zero]
    rw [show mtName c2Db c2Prod = some "Wood" from rfl]
    rw [show max (0:ℚ) 5 = 5 by norm_num, show max (0:ℚ) 0 = 0 by norm_num]
    rfl
  have hapi : apiReorderRows c2Db = [c2ApiRow] := by
    show sortLeB apiCmpLe
        (((sortLeB (fun p q => decide (p.name ≤ q.name)) c2Db.products).map
          (mkApiRow c2Db)).filter (fun r => decide ((0:ℤ) < r.to_order)))
      = [c2ApiRow]
    rw [show (sortLeB (fun p q => decide (p.name ≤ q.name)) c2Db.products).map
        (mkApiRow c2Db) = [mkApiRow c2Db c2Prod] from rfl]
    rw [hrow]
    rfl
  have hreport : reorderReport c2Db = uiGroups [apiRowToUi c2ApiRow] := by
    show uiGroups ((apiReorderRows c2Db).map apiRowToUi) = _
    rw [hapi]
    rfl
  refine ⟨?_, rfl, rfl⟩
  rw [hreport]
  rfl
